import Mathlib

set_option maxRecDepth 10000

/-!
Verification development for the Meshtastic/Telegram bridge bot
(`mesh_bot.py`).  The Python source is shallowly embedded: texts are
lists of characters, the byte-accounting and segmentation routines are
translated as structurally recursive functions, the message-correlation
store (an `OrderedDict` bounded to 1000 entries) is an association list
in insertion order, the pending-confirmation workflow and the
connection-lifecycle state machine are pure step functions over explicit
state records.
-/

namespace MeshBot

/-- Texts are modelled as lists of characters (Python iterates strings
character by character in every routine embedded here). -/
abbrev Text := List Char

/-- Byte accounting for one character, from `_calculate_text_bytes`:
a code point below 128 counts 1 byte, anything else counts 2. -/
def charByteCount (c : Char) : Nat :=
  if c.toNat < 128 then 1 else 2

/-- `_calculate_text_bytes`: sum of the per-character byte counts. -/
def calcTextBytes : Text → Nat
  | [] => 0
  | c :: cs => charByteCount c + calcTextBytes cs

/-- Whitespace recognised by Python's `str.split()` (the `str.isspace()`
characters): the ASCII control whitespace `0x09`-`0x0D`, the separators
`0x1C`-`0x1F`, the space, and the Unicode space/line/paragraph
separators NEL, NBSP, Ogham space, `U+2000`-`U+200A`, `U+2028`,
`U+2029`, narrow NBSP, medium mathematical space and ideographic
space. -/
def isPySpace (c : Char) : Bool :=
  let n := c.toNat
  (0x09 ≤ n && n ≤ 0x0D) || (0x1C ≤ n && n ≤ 0x20) ||
  n == 0x85 || n == 0xA0 || n == 0x1680 ||
  (0x2000 ≤ n && n ≤ 0x200A) ||
  n == 0x2028 || n == 0x2029 || n == 0x202F || n == 0x205F || n == 0x3000

/-- Helper for `splitWords`: accumulates the current word in reverse. -/
def splitWordsAux : Text → Text → List Text
  | [], acc => if acc = [] then [] else [acc.reverse]
  | c :: cs, acc =>
      if isPySpace c then
        if acc = [] then splitWordsAux cs []
        else acc.reverse :: splitWordsAux cs []
      else splitWordsAux cs (c :: acc)

/-- Python `text.split()`: split on runs of whitespace, dropping empty
words. -/
def splitWords (t : Text) : List Text := splitWordsAux t []

/-- Python `' '.join(words)`. -/
def joinSpace : List Text → Text
  | [] => []
  | [w] => w
  | w :: ws => w ++ ' ' :: joinSpace ws

/-- The character-by-character hard-split loop inside
`_split_text_by_bytes` (the `for char in word` loop): packs characters
into `charPart` while the running byte count stays within
`effective`, flushing full pieces into `parts`.  Returns the updated
`parts`, the trailing `char_part` and its byte count. -/
def hardSplitLoop (effective : Nat) :
    Text → List Text → Text → Nat → List Text × Text × Nat
  | [], parts, charPart, charBytes => (parts, charPart, charBytes)
  | c :: cs, parts, charPart, charBytes =>
      let cb := charByteCount c
      if charBytes + cb ≤ effective then
        hardSplitLoop effective cs parts (charPart ++ [c]) (charBytes + cb)
      else
        if charPart = [] then
          hardSplitLoop effective cs parts [c] cb
        else
          hardSplitLoop effective cs (parts ++ [charPart]) [c] cb

/-- The `for word in words` loop of `_split_text_by_bytes`: greedy
packing of whole words, flushing the current chunk on overflow, and
falling back to `hardSplitLoop` when the chunk is empty. -/
def packLoop (effective : Nat) :
    List Text → List Text → List Text → Nat → List Text × List Text × Nat
  | [], parts, current, currentBytes => (parts, current, currentBytes)
  | w :: ws, parts, current, currentBytes =>
      let wordBytes := calcTextBytes w
      let spaceBytes := if current = [] then 0 else 1
      if currentBytes + wordBytes + spaceBytes ≤ effective then
        packLoop effective ws parts (current ++ [w]) (currentBytes + wordBytes + spaceBytes)
      else
        if current = [] then
          match hardSplitLoop effective w parts [] 0 with
          | (parts1, charPart, _) =>
              if charPart = [] then
                packLoop effective ws parts1 [] currentBytes
              else
                packLoop effective ws parts1 [charPart] (calcTextBytes charPart)
        else
          packLoop effective ws (parts ++ [joinSpace current]) [w] wordBytes

/-- `MARKER_RESERVE` inside `_split_text_by_bytes` (`marker_reserve = 10`). -/
def markerReserve : Nat := 10

/-- The unmarked chunk list produced by `_split_text_by_bytes` before
the `[i/N]` markers are appended: run the word-packing loop and flush
the trailing chunk. -/
def rawParts (t : Text) (maxBytes : Nat) : List Text :=
  let effective := maxBytes - markerReserve
  match packLoop effective (splitWords t) [] [] 0 with
  | (parts, current, _) =>
      if current = [] then parts else parts ++ [joinSpace current]

/-- The `" [i/n]"` marker appended to chunk `i` of `n`
(`f"{part} [{i}/{total_parts}]"`, hence the leading space). -/
def markerText (i n : Nat) : Text :=
  (" [" ++ Nat.repr i ++ "/" ++ Nat.repr n ++ "]").toList

/-- The `for i, part in enumerate(parts, 1)` marking loop. -/
def markLoop (n : Nat) : Nat → List Text → List Text
  | _, [] => []
  | i, p :: ps => (p ++ markerText i n) :: markLoop n (i + 1) ps

/-- Append `" [i/N]"` to every chunk (1-based). -/
def markParts (parts : List Text) : List Text :=
  markLoop parts.length 1 parts

/-- `MAX_BYTES_PER_MESSAGE = 200`. -/
def MAX_BYTES_PER_MESSAGE : Nat := 200

/-- `_split_text_by_bytes(text, max_bytes)`: empty text yields no
chunks; a text within the budget is returned whole and unmarked;
otherwise the text is packed into chunks of at most
`max_bytes - marker_reserve` accounted bytes and, when more than one
chunk results, each chunk gets its `" [i/N]"` marker. -/
def splitTextByBytes (t : Text) (maxBytes : Nat) : List Text :=
  if t = [] then []
  else if calcTextBytes t ≤ maxBytes then [t]
  else
    let parts := rawParts t maxBytes
    if 1 < parts.length then markParts parts else parts

/-! ### Message correlation store

`msg_mapping` is an `OrderedDict` guarded by `msg_mapping_lock`; every
operation on it in the source is a single critical section, so the
store is modelled as a sequential association list in insertion
order. -/

/-- The value stored under a mesh message id in `msg_mapping`
(`{'telegram_msg_id': ..., 'node_id': ..., 'is_private': ...}`). -/
structure MsgInfo where
  telegram_msg_id : Nat
  node_id : Option String
  is_private : Bool
deriving DecidableEq, Repr

/-- `msg_mapping`: mesh-message-id-keyed records in insertion order
(head = oldest). -/
abbrev MsgMapping := List (Nat × MsgInfo)

/-- `MAX_MAPPING_SIZE = 1000`. -/
def MAX_MAPPING_SIZE : Nat := 1000

/-- `OrderedDict.__setitem__`: an existing key is updated in place
(keeping its position), a new key is appended at the end. -/
def odSet (m : MsgMapping) (k : Nat) (v : MsgInfo) : MsgMapping :=
  if m.any (fun p => p.1 = k) then
    m.map (fun p => if p.1 = k then (k, v) else p)
  else m ++ [(k, v)]

/-- `msg_mapping.get(k)`: first (and, with distinct keys, only) record
stored under `k`. -/
def odGet (m : MsgMapping) (k : Nat) : Option MsgInfo :=
  (m.find? (fun p => p.1 = k)).map Prod.snd

/-- The store step performed in `_forward_to_telegram` under the lock:
`popitem(last=False)` (evict the oldest entry) when the mapping has
reached `MAX_MAPPING_SIZE`, then insert the new record. -/
def recordMapping (m : MsgMapping) (k : Nat) (v : MsgInfo) : MsgMapping :=
  let m1 := if MAX_MAPPING_SIZE ≤ m.length then m.drop 1 else m
  odSet m1 k v

/-- The mapping update of `_forward_to_telegram`, including the
`if meshtastic_msg_id:` guard and the `node_id if is_private else None`
stored destination. -/
def forwardStoreMapping (m : MsgMapping) (meshMsgId : Option Nat)
    (telegramMsgId : Nat) (nodeId : Option String) (isPrivate : Bool) : MsgMapping :=
  match meshMsgId with
  | none => m
  | some mid =>
      recordMapping m mid
        ⟨telegramMsgId, if isPrivate then nodeId else none, isPrivate⟩

/-- Folding a sequence of `recordMapping` insertions over the store. -/
def insertAll (m : MsgMapping) (ks : List (Nat × MsgInfo)) : MsgMapping :=
  ks.foldl (fun acc kv => recordMapping acc kv.1 kv.2) m

/-- `_find_reply_info(telegram_parent_id)`: linear scan of
`msg_mapping` for the record whose `telegram_msg_id` matches, returning
`(meshtastic_reply_id, node_id, is_private)`, or `(None, None, False)`
when absent. -/
def findReplyInfo (m : MsgMapping) (telegramParentId : Nat) :
    Option Nat × Option String × Bool :=
  match m.find? (fun p => p.2.telegram_msg_id = telegramParentId) with
  | some p => (some p.1, p.2.node_id, p.2.is_private)
  | none => (none, none, false)

/-! ### Pending-confirmation workflow -/

/-- One entry of `self.pending_messages` (keyed by chat id in the
source): the staged text, destination node id (`None` for the general
channel), the mesh reply id, the originating Telegram message id and
the resolved node display name. -/
structure Pending where
  text : Text
  dest : Option String
  reply_id : Option Nat
  msg_id : Nat
  node_name : Option String
deriving DecidableEq, Repr

/-- `self.pending_messages` as a map from chat id to the (single)
staged confirmation for that chat. -/
abbrev PendingMap := String → Option Pending

/-- `self.pending_messages[chat_id] = {...}`: staging (or silently
replacing) the pending confirmation of a conversation. -/
def setPending (pm : PendingMap) (chatId : String) (p : Pending) : PendingMap :=
  fun c => if c = chatId then some p else pm c

/-- The `kwargs` handed to `interface.sendText` (`replyId`/`channel`). -/
structure SendKwargs where
  replyId : Option Nat
  channel : Option String
deriving DecidableEq, Repr

/-- Outcome of `_handle_confirmation` for the conversation's slot. -/
inductive ConfirmResult where
  /-- Mismatched id or no staged message: nothing sent, slot untouched. -/
  | noAction : ConfirmResult
  /-- Matching cancel: slot cleared, nothing sent. -/
  | cancelled : ConfirmResult
  /-- Matching confirm while disconnected: slot cleared, nothing sent,
  error notice shown. -/
  | notConnected : ConfirmResult
  /-- Matching confirm while connected: the staged text is segmented
  and the parts are sent to the mesh. -/
  | sent (parts : List Text) (kwargs : SendKwargs) (dest : Option String) : ConfirmResult
deriving DecidableEq, Repr

/-- `_handle_confirmation`, reduced to the conversation whose callback
arrived: `isCancel` selects the `cancel_send_`/`confirm_send_` branch,
`origMsgId` is the id embedded in the callback data, `slot` is
`self.pending_messages.get(chat_id)`.  Returns the new slot value and
what was done. -/
def handleConfirmation (isCancel : Bool) (origMsgId : Nat)
    (slot : Option Pending) (connected : Bool) (defaultChannel : Option String) :
    Option Pending × ConfirmResult :=
  if isCancel then
    match slot with
    | some p =>
        if p.msg_id = origMsgId then (none, .cancelled) else (slot, .noAction)
    | none => (slot, .noAction)
  else
    match slot with
    | none => (slot, .noAction)
    | some p =>
        if p.msg_id ≠ origMsgId then (slot, .noAction)
        else if ¬connected then (none, .notConnected)
        else
          let kwargs : SendKwargs :=
            { replyId := p.reply_id, channel := defaultChannel }
          (none, .sent (splitTextByBytes p.text MAX_BYTES_PER_MESSAGE) kwargs p.dest)

/-- The staging step of `_handle_telegram_message` (lines 1213-1251):
resolve the replied-to Telegram message through `_find_reply_info`,
resolve the destination's display name through `node_map`, and build
the `Pending` record stored under the chat id. -/
def stageTelegramMessage (m : MsgMapping) (nodeMap : List (String × String))
    (text : Text) (msgId : Nat) (replyParent : Option Nat) : Pending :=
  let info :=
    match replyParent with
    | some pid => findReplyInfo m pid
    | none => (none, none, false)
  let meshReplyId := info.1
  let destNodeId := info.2.1
  let nodeName : Option String :=
    match destNodeId with
    | none => none
    | some d =>
        match nodeMap.find? (fun p => p.2 = d) with
        | some p => some p.1
        | none => some d
  { text := text, dest := destNodeId, reply_id := meshReplyId,
    msg_id := msgId, node_name := nodeName }

/-! ### Connection lifecycle -/

/-- The connection-related fields of `MeshTelegramBot`. -/
structure BotConn where
  is_connected : Bool
  manual_disconnect : Bool
  reconnect_in_progress : Bool
  /-- `last_reconnect_attempt` as a timestamp in seconds. -/
  last_reconnect_attempt : Nat
  /-- Whether `self.interface` is set. -/
  has_interface : Bool
deriving DecidableEq, Repr

/-- The backoff computed by `_attempt_reconnect` from the elapsed idle
time: `min(1 << min(max(0, elapsed // 60), 10), 300)`.  Elapsed time is
non-negative, so the `max(0, ...)` clamp is the identity and the shift
is `2 ^ _`. -/
def reconnectBackoff (elapsed : Nat) : Nat :=
  min (2 ^ min (elapsed / 60) 10) 300

/-- `_mark_disconnected`: clears `is_connected` (the guarded print has
no state effect). -/
def markDisconnected (s : BotConn) : BotConn :=
  { s with is_connected := false }

/-- `_connect_meshtastic`: tears down any existing interface, then
opens a new one; on success (`connectOk`) the interface is set and
`is_connected` becomes true, on failure both are cleared. -/
def connectMeshtastic (s : BotConn) (connectOk : Bool) : BotConn :=
  { s with has_interface := connectOk, is_connected := connectOk }

/-- `_disconnect_meshtastic`: when an interface exists it is closed and
`is_connected` cleared; otherwise nothing changes. -/
def disconnectMeshtastic (s : BotConn) : BotConn :=
  if s.has_interface then
    { s with has_interface := false, is_connected := false }
  else s

/-- `_attempt_reconnect`: no-op when `manual_disconnect` is set, when a
reconnect is already in flight, or when the backoff interval has not
elapsed; otherwise stamp `last_reconnect_attempt = now` and call
`_connect_meshtastic`.  The second component records whether
`_connect_meshtastic` was called. -/
def attemptReconnect (s : BotConn) (now : Nat) (connectOk : Bool) :
    BotConn × Bool :=
  if s.manual_disconnect then (s, false)
  else if s.reconnect_in_progress then (s, false)
  else
    let backoff := reconnectBackoff (now - s.last_reconnect_attempt)
    if now - s.last_reconnect_attempt < backoff then (s, false)
    else
      let s1 := connectMeshtastic
        { s with reconnect_in_progress := true, last_reconnect_attempt := now }
        connectOk
      ({ s1 with reconnect_in_progress := false }, true)

/-- `_handle_disconnect_command`: set `manual_disconnect`, then
`_disconnect_meshtastic`. -/
def disconnectCommand (s : BotConn) : BotConn :=
  disconnectMeshtastic { s with manual_disconnect := true }

/-- `_handle_connect_command`: clear `manual_disconnect`, then
`_connect_meshtastic`. -/
def connectCommand (s : BotConn) (connectOk : Bool) : BotConn :=
  connectMeshtastic { s with manual_disconnect := false } connectOk

/-- The connection-affecting events of the three execution contexts:
the control loop's health check, the pubsub disconnect/error handlers,
and the two chat commands.  `now`/`connectOk`/`healthOk` are the
environment's inputs (clock, TCP connect outcome, probe outcome). -/
inductive BotEvent where
  | attemptRec (now : Nat) (connectOk : Bool) : BotEvent
  | onDisc (now : Nat) (connectOk : Bool) : BotEvent
  | meshErr (now : Nat) (connectOk : Bool) (isConnErr : Bool) : BotEvent
  | tick (now : Nat) (healthOk : Bool) (connectOk : Bool) : BotEvent
  | disconnectCmd : BotEvent
  | connectCmd (connectOk : Bool) : BotEvent
deriving DecidableEq, Repr

/-- Whether the event is the explicit `/connect` command. -/
def BotEvent.isConnectCmd : BotEvent → Bool
  | .connectCmd _ => true
  | _ => false

/-- One event step.  The second component records whether
`_connect_meshtastic` was invoked during the step:
* `attemptRec` is `_attempt_reconnect`;
* `onDisc` is `_on_disconnect` (`_mark_disconnected`, then reconnect
  unless `manual_disconnect`);
* `meshErr` is `_handle_meshtastic_error` (same, but only for
  connection-type errors);
* `tick` is the health-check block of `run`'s main loop, which is
  skipped entirely while `manual_disconnect` is set;
* `disconnectCmd`/`connectCmd` are the chat commands. -/
def stepBot (s : BotConn) : BotEvent → BotConn × Bool
  | .attemptRec now ok => attemptReconnect s now ok
  | .onDisc now ok =>
      let s1 := markDisconnected s
      if s1.manual_disconnect then (s1, false) else attemptReconnect s1 now ok
  | .meshErr now ok isConnErr =>
      if isConnErr then
        let s1 := markDisconnected s
        if s1.manual_disconnect then (s1, false) else attemptReconnect s1 now ok
      else (s, false)
  | .tick now healthOk ok =>
      if s.manual_disconnect then (s, false)
      else if healthOk then (s, false)
      else attemptReconnect (markDisconnected s) now ok
  | .disconnectCmd => (disconnectCommand s, false)
  | .connectCmd ok => (connectCommand s ok, true)

/-- Run a sequence of events; the second component is true when any
step invoked `_connect_meshtastic`. -/
def runBot (s : BotConn) : List BotEvent → BotConn × Bool
  | [] => (s, false)
  | e :: evs =>
      let r := stepBot s e
      let rest := runBot r.1 evs
      (rest.1, r.2 || rest.2)

/-! ### Auto-reply policy engine -/

/-- The hot-reloadable configuration consumed by the receive path
(keywords and private node names are stored lowercased by
`_load_config`). -/
structure BotConfig where
  keywords : List Text
  private_node_names : List String
  general_suffix : String
  private_suffix : String
  default_channel : Option String
  hop_filter_min : Option Int
  hop_filter_max : Option Int
deriving DecidableEq, Repr

/-- Python `str.lower()` on one character, for the bicameral script
ranges that occur in this bot's node names and keywords (ASCII,
Latin-1, Greek, basic Cyrillic — the bot's strings are Russian and
English).  On these ranges CPython's simple case mapping is the fixed
offset used here; characters outside them are left unchanged. -/
def pyLowerChar (c : Char) : Char :=
  let n := c.toNat
  if 0x41 ≤ n && n ≤ 0x5A then Char.ofNat (n + 32)
  else if (0xC0 ≤ n && n ≤ 0xD6) || (0xD8 ≤ n && n ≤ 0xDE) then
    Char.ofNat (n + 32)
  else if (0x391 ≤ n && n ≤ 0x3A1) || (0x3A3 ≤ n && n ≤ 0x3AB) then
    Char.ofNat (n + 32)
  else if 0x400 ≤ n && n ≤ 0x40F then Char.ofNat (n + 80)
  else if 0x410 ≤ n && n ≤ 0x42F then Char.ofNat (n + 32)
  else c

/-- Python `str.lower()`. -/
def strLower (s : String) : String := s.map pyLowerChar

/-- `_get_hops_reply`: `"<name> <hops> hops [via <relay>] <suffix>"`. -/
def getHopsReply (shortName : String) (hopCount : Int) (suffix : String)
    (viaShortName : Option String) : String :=
  let r := shortName ++ " " ++ toString hopCount ++ " hops"
  let r := match viaShortName with
    | some v => r ++ " via " ++ v
    | none => r
  r ++ " " ++ suffix

/-- `_get_signal_reply`: `"<name> SNR: <snr>, RSSI: <rssi> [via <relay>] <suffix>"`. -/
def getSignalReply (shortName : String) (rssi snr : String) (suffix : String)
    (viaShortName : Option String) : String :=
  let r := shortName ++ " SNR: " ++ snr ++ ", RSSI: " ++ rssi
  let r := match viaShortName with
    | some v => r ++ " via " ++ v
    | none => r
  r ++ " " ++ suffix

/-- `hop_count = hop_start - hop_limit` when both are present. -/
def computeHopCount (hopStart hopLimit : Option Int) : Option Int :=
  match hopStart, hopLimit with
  | some hs, some hl => some (hs - hl)
  | _, _ => none

/-- Template selection in `_handle_auto_reply`: the hop-count template
when `hop_count` is present and positive, the signal template
otherwise; the suffix follows the privacy flag. -/
def composeAutoReply (isPrivate : Bool) (shortName : String) (rssi snr : String)
    (hopCount : Option Int) (viaShortName : Option String) (cfg : BotConfig) : String :=
  let suffix := if isPrivate then cfg.private_suffix else cfg.general_suffix
  match hopCount with
  | some hc =>
      if 0 < hc then getHopsReply shortName hc suffix viaShortName
      else getSignalReply shortName rssi snr suffix viaShortName
  | none => getSignalReply shortName rssi snr suffix viaShortName

/-- What `_handle_auto_reply` does: `meshSend` is the reply transmitted
onto the mesh via `_send_to_meshtastic` (with its kwargs and unicast
destination), `telegramMirror` is the `reply_text` handed to
`_forward_auto_reply_to_telegram`. -/
structure AutoReplyOutcome where
  meshSend : Option (String × SendKwargs × Option String)
  telegramMirror : Option String
deriving DecidableEq, Repr

/-- `_handle_auto_reply`: bail out when disconnected; suppress private
messages from nodes outside the allow-list; compose the reply; for
broadcast packets whose hop count falls inside the configured
`[min, max]` filter, mirror the reply to Telegram flagged `[FILTERED]`
without transmitting; otherwise transmit on the mesh (unicast for
private) and mirror the reply. -/
def handleAutoReply (connected : Bool) (isPrivate : Bool) (shortName : String)
    (nodeId : Option String) (rssi snr : String) (hopStart hopLimit : Option Int)
    (channelName : Option String) (meshMsgId : Option Nat)
    (viaShortName : Option String) (cfg : BotConfig) : AutoReplyOutcome :=
  if ¬connected then ⟨none, none⟩
  else if isPrivate && !(cfg.private_node_names.contains (strLower shortName)) then
    ⟨none, none⟩
  else
    let kwargs : SendKwargs := { replyId := meshMsgId, channel := channelName }
    let hopCount := computeHopCount hopStart hopLimit
    let reply := composeAutoReply isPrivate shortName rssi snr hopCount viaShortName cfg
    let filtered :=
      match isPrivate, hopCount, cfg.hop_filter_min, cfg.hop_filter_max with
      | false, some hc, some fmin, some fmax => fmin ≤ hc && hc ≤ fmax
      | _, _, _, _ => false
    if filtered then
      ⟨none, some ("[FILTERED] " ++ reply)⟩
    else
      ⟨some (reply, kwargs, if isPrivate then nodeId else none), some reply⟩

/-! ### Receive path -/

/-- The broadcast test of `_is_broadcast`: `to_id == 0xffffffff`. -/
def BROADCAST_ID : Nat := 0xffffffff

/-- Keyword gate of `_on_receive`: lowercase the text, split it on
whitespace, and look for a configured keyword among the whole
tokens. -/
def hasKeywords (text : Text) (keywords : List Text) : Bool :=
  let words := splitWords (text.map pyLowerChar)
  keywords.any (fun kw => words.contains kw)

/-- The externally observable effects of `_on_receive` on a decoded
text packet. -/
structure ReceiveEffects where
  /-- Every text packet is appended to a log file. -/
  loggedToFile : Bool
  /-- Which log file: `"general"` for broadcasts, `"private"` otherwise. -/
  logType : String
  /-- Whether `_forward_to_telegram` is called (the chat mirror post). -/
  forwardedToTelegram : Bool
  /-- The `_handle_auto_reply` outcome when the keyword gate fires. -/
  autoReply : Option AutoReplyOutcome
deriving DecidableEq, Repr

/-- The decision logic of `_on_receive` for a `TEXT_MESSAGE_APP`
packet (sender resolution through the interface's node table is
summarised by `shortName`/`nodeId`/`viaShortName`): log the packet,
mirror it to Telegram only when it is a broadcast or a private message
from an allow-listed sender, and run the auto-reply engine when a
keyword matches. -/
def onReceiveText (connected : Bool) (toId : Nat) (shortName : String)
    (nodeId : Option String) (text : Text) (rssi snr : String)
    (hopStart hopLimit : Option Int) (channelName : Option String)
    (meshMsgId : Option Nat) (viaShortName : Option String)
    (cfg : BotConfig) : ReceiveEffects :=
  let isBroadcast : Bool := toId == BROADCAST_ID
  let isPrivate : Bool := !isBroadcast
  let forward : Bool := isBroadcast ||
    (isPrivate && cfg.private_node_names.contains (strLower shortName))
  { loggedToFile := true
    logType := if isBroadcast then "general" else "private"
    forwardedToTelegram := forward
    autoReply :=
      if hasKeywords text cfg.keywords then
        some (handleAutoReply connected isPrivate shortName nodeId rssi snr
          hopStart hopLimit channelName meshMsgId viaShortName cfg)
      else none }

/-! ## Theorems -/

/-- C7: For every non-negative elapsed idle time `e`, the reconnect
backoff equals `min(2 ^ min(⌊e/60⌋, 10), 300)` seconds; as a function
of `e` it is non-decreasing and never exceeds 300 seconds. -/
theorem c7_backoff_formula (e e' : Nat) (h : e ≤ e') :
    reconnectBackoff e = min (2 ^ min (e / 60) 10) 300 ∧
    reconnectBackoff e ≤ reconnectBackoff e' ∧
    reconnectBackoff e ≤ 300 := by
  refine ⟨rfl, ?_, min_le_right _ _⟩
  exact min_le_min
    (Nat.pow_le_pow_right (by norm_num)
      (min_le_min (Nat.div_le_div_right h) le_rfl)) le_rfl

/-- Witness for C7 at `e = 0`, `e' = 720`. -/
theorem c7_backoff_formula_witness :
    (0 : Nat) ≤ 720 ∧
    (reconnectBackoff 0 = min (2 ^ min (0 / 60) 10) 300 ∧
     reconnectBackoff 0 ≤ reconnectBackoff 720 ∧
     reconnectBackoff 0 ≤ 300) :=
  ⟨by decide, c7_backoff_formula 0 720 (by decide)⟩

/-- C8 fails on the empty text: its accounted size is `0 ≤ 200`, yet
`_split_text_by_bytes` returns `[]`, not the one-element list
containing the empty text. -/
theorem c8_counterexample :
    calcTextBytes ([] : Text) ≤ 200 ∧
    splitTextByBytes ([] : Text) 200 ≠ [([] : Text)] := by
  decide

/-- C8 (amended): for every NONEMPTY text whose accounted size is at
most the budget, `_split_text_by_bytes` returns exactly the one-element
list holding the text, with no marker appended. -/
theorem c8_single_chunk (t : Text) (maxBytes : Nat)
    (hne : t ≠ []) (hle : calcTextBytes t ≤ maxBytes) :
    splitTextByBytes t maxBytes = [t] := by
  simp [splitTextByBytes, hne, hle]

/-- Witness for C8 at the two-byte ASCII text `"hi"`. -/
theorem c8_single_chunk_witness :
    (['h', 'i'] : Text) ≠ [] ∧ calcTextBytes ['h', 'i'] ≤ 200 ∧
    splitTextByBytes ['h', 'i'] 200 = [['h', 'i']] :=
  ⟨by decide, by decide, c8_single_chunk _ _ (by decide) (by decide)⟩

/-! ### Correlation-store lemmas (C2, C6) -/

/-- When the key is fresh, `OrderedDict` assignment appends. -/
lemma odSet_fresh (m : MsgMapping) (k : Nat) (v : MsgInfo)
    (hk : ∀ p ∈ m, p.1 ≠ k) : odSet m k v = m ++ [(k, v)] := by
  have hany : (m.any fun p => decide (p.1 = k)) = false := by
    rw [List.any_eq_false]
    intro p hp
    simpa using hk p hp
  unfold odSet
  rw [hany]
  simp

/-- `recordMapping` on a fresh key: evict the head at capacity, then
append. -/
lemma recordMapping_fresh (m : MsgMapping) (k : Nat) (v : MsgInfo)
    (hk : ∀ p ∈ m, p.1 ≠ k) :
    recordMapping m k v =
      (if MAX_MAPPING_SIZE ≤ m.length then m.drop 1 else m) ++ [(k, v)] := by
  unfold recordMapping
  apply odSet_fresh
  intro p hp
  apply hk
  revert hp
  split
  · exact fun hp => List.mem_of_mem_drop hp
  · exact fun hp => hp

/-- The store never grows beyond `MAX_MAPPING_SIZE`. -/
lemma recordMapping_length_le (m : MsgMapping) (k : Nat) (v : MsgInfo)
    (h : m.length ≤ MAX_MAPPING_SIZE) :
    (recordMapping m k v).length ≤ MAX_MAPPING_SIZE := by
  have hmax : 1 ≤ MAX_MAPPING_SIZE := by simp [MAX_MAPPING_SIZE]
  unfold recordMapping odSet
  dsimp only
  split
  · rename_i hcap
    split
    · simp only [List.length_map, List.length_drop]
      omega
    · simp only [List.length_append, List.length_drop, List.length_cons,
        List.length_nil]
      omega
  · rename_i hcap
    split
    · simp only [List.length_map]
      omega
    · simp only [List.length_append, List.length_cons, List.length_nil]
      omega

/-- Folding fresh distinct-key insertions keeps exactly the most
recent `MAX_MAPPING_SIZE` records, in insertion order. -/
lemma insertAll_fresh_keys (ks : List (Nat × MsgInfo)) :
    ∀ m : MsgMapping, m.length ≤ MAX_MAPPING_SIZE →
    (m.map Prod.fst ++ ks.map Prod.fst).Nodup →
    insertAll m ks = (m ++ ks).drop (m.length + ks.length - MAX_MAPPING_SIZE) := by
  induction ks with
  | nil =>
    intro m hlen _
    have h0 : m.length - MAX_MAPPING_SIZE = 0 := by omega
    simp [insertAll, h0]
  | cons kv tl ih =>
    intro m hlen hnd
    obtain ⟨k, v⟩ := kv
    rw [List.map_cons, List.nodup_append] at hnd
    obtain ⟨hndm, hndc, hdisj⟩ := hnd
    have hkm : ∀ p ∈ m, p.1 ≠ k := by
      intro p hp hpk
      exact hdisj (List.mem_map_of_mem Prod.fst hp) (hpk ▸ List.mem_cons_self _ _)
    have hnodup2 : ∀ m2 : MsgMapping, (m2.map Prod.fst).Sublist (m.map Prod.fst) →
        ((m2 ++ [(k, v)]).map Prod.fst ++ tl.map Prod.fst).Nodup := by
      intro m2 hsub
      have hsub2 : ((m2.map Prod.fst ++ [k]) ++ tl.map Prod.fst).Sublist
          ((m.map Prod.fst ++ [k]) ++ tl.map Prod.fst) :=
        List.Sublist.append (List.Sublist.append hsub (List.Sublist.refl _))
          (List.Sublist.refl _)
      have hnd3 : ((m.map Prod.fst ++ [k]) ++ tl.map Prod.fst).Nodup := by
        have heq : (m.map Prod.fst ++ [k]) ++ tl.map Prod.fst
            = m.map Prod.fst ++ (k :: tl.map Prod.fst) := by simp
        rw [heq, List.nodup_append]
        exact ⟨hndm, hndc, hdisj⟩
      have := hsub2.nodup hnd3
      simpa using this
    have hstep : insertAll m ((k, v) :: tl) = insertAll (recordMapping m k v) tl := rfl
    rw [hstep, recordMapping_fresh m k v hkm]
    by_cases hcap : MAX_MAPPING_SIZE ≤ m.length
    · have hmlen : m.length = MAX_MAPPING_SIZE := le_antisymm hlen hcap
      rw [if_pos hcap]
      obtain ⟨a, m', rfl⟩ : ∃ a m', m = a :: m' := by
        cases m with
        | nil => simp [MAX_MAPPING_SIZE] at hmlen
        | cons a m' => exact ⟨a, m', rfl⟩
      have hm'len : m'.length + 1 = MAX_MAPPING_SIZE := by
        simpa using hmlen
      have hd : (a :: m').drop 1 = m' := rfl
      rw [hd]
      have hlen2 : (m' ++ [(k, v)]).length ≤ MAX_MAPPING_SIZE := by
        simp only [List.length_append, List.length_cons, List.length_nil]
        omega
      have hsubm : (m'.map Prod.fst).Sublist ((a :: m').map Prod.fst) :=
        (List.sublist_cons_self a m').map Prod.fst
      have hih := ih (m' ++ [(k, v)]) hlen2 (hnodup2 m' hsubm)
      rw [hih]
      have e1 : (m' ++ [(k, v)]).length + tl.length - MAX_MAPPING_SIZE
          = tl.length := by
        simp only [List.length_append, List.length_cons, List.length_nil]
        omega
      have e2 : (a :: m').length + ((k, v) :: tl).length - MAX_MAPPING_SIZE
          = tl.length + 1 := by
        simp only [List.length_cons]
        omega
      rw [e1, e2]
      simp [List.append_assoc, List.drop_succ_cons]
    · rw [if_neg hcap]
      have hlen2 : (m ++ [(k, v)]).length ≤ MAX_MAPPING_SIZE := by
        simp only [List.length_append, List.length_cons, List.length_nil]
        omega
      have hih := ih (m ++ [(k, v)]) hlen2 (hnodup2 m (List.Sublist.refl _))
      rw [hih]
      have e2 : (m ++ [(k, v)]).length + tl.length - MAX_MAPPING_SIZE
          = m.length + ((k, v) :: tl).length - MAX_MAPPING_SIZE := by
        simp only [List.length_append, List.length_cons, List.length_nil]
        omega
      rw [e2]
      simp [List.append_assoc]

/-- Lookup misses when no stored key matches. -/
lemma odGet_eq_none (m : MsgMapping) (k : Nat)
    (hk : ∀ p ∈ m, p.1 ≠ k) : odGet m k = none := by
  unfold odGet
  rw [List.find?_eq_none.mpr]
  · rfl
  · intro p hp
    simpa using hk p hp

/-- Lookup hits the stored record when keys are distinct. -/
lemma odGet_eq_some (m : MsgMapping) (k : Nat) (v : MsgInfo)
    (hnd : (m.map Prod.fst).Nodup) (hmem : (k, v) ∈ m) : odGet m k = some v := by
  induction m with
  | nil => cases hmem
  | cons q qs ih =>
    rw [List.map_cons, List.nodup_cons] at hnd
    rcases List.mem_cons.mp hmem with heq | hmem2
    · subst heq
      unfold odGet
      simp [List.find?]
    · have hq : q.1 ≠ k := by
        intro hqk
        exact hnd.1 (hqk ▸ List.mem_map_of_mem Prod.fst hmem2)
      unfold odGet
      rw [List.find?_cons_of_neg]
      · exact ih hnd.2 hmem2
      · simpa using hq

/-- C2: the correlation mapping never exceeds 1000 entries; the record
operation evicts the single oldest-inserted entry when at capacity, so
after `1000 + 1` insertions with distinct mesh message ids the store
holds exactly the last 1000 records in insertion order (FIFO): the
first-inserted key is absent and every one of the 1000 most recent
records is still retrievable. -/
theorem c2_mapping_capacity_fifo (ks : List (Nat × MsgInfo))
    (hlen : ks.length = MAX_MAPPING_SIZE + 1)
    (hnd : (ks.map Prod.fst).Nodup) :
    (∀ (m : MsgMapping) (k : Nat) (v : MsgInfo),
        m.length ≤ MAX_MAPPING_SIZE →
        (recordMapping m k v).length ≤ MAX_MAPPING_SIZE) ∧
    insertAll [] ks = ks.drop 1 ∧
    (∀ kv : Nat × MsgInfo, ks.head? = some kv →
        odGet (insertAll [] ks) kv.1 = none) ∧
    (∀ kv ∈ ks.drop 1, odGet (insertAll [] ks) kv.1 = some kv.2) := by
  have hfold : insertAll [] ks = ks.drop 1 := by
    have h := insertAll_fresh_keys ks [] (by simp [MAX_MAPPING_SIZE]) (by simpa using hnd)
    simpa [hlen] using h
  refine ⟨recordMapping_length_le, hfold, ?_, ?_⟩
  · intro kv hhead
    obtain ⟨k0, rest, rfl⟩ : ∃ k0 rest, ks = k0 :: rest := by
      cases ks with
      | nil => simp at hhead
      | cons k0 rest => exact ⟨k0, rest, rfl⟩
    have hkv : k0 = kv := by simpa using hhead
    subst hkv
    rw [hfold]
    rw [List.map_cons, List.nodup_cons] at hnd
    apply odGet_eq_none
    intro p hp hpk
    exact hnd.1 (hpk ▸ List.mem_map_of_mem Prod.fst hp)
  · intro kv hkv
    rw [hfold]
    refine odGet_eq_some _ _ _ ?_ hkv
    rw [List.map_drop]
    exact (List.drop_sublist 1 (ks.map Prod.fst)).nodup hnd

/-- Witness for C2: 1001 insertions keyed `0, 1, …, 1000`. -/
theorem c2_mapping_capacity_fifo_witness :
    (((List.range (MAX_MAPPING_SIZE + 1)).map
        (fun i => (i, (⟨0, none, false⟩ : MsgInfo)))).length
      = MAX_MAPPING_SIZE + 1) ∧
    ((((List.range (MAX_MAPPING_SIZE + 1)).map
        (fun i => (i, (⟨0, none, false⟩ : MsgInfo)))).map Prod.fst).Nodup) ∧
    insertAll [] ((List.range (MAX_MAPPING_SIZE + 1)).map
        (fun i => (i, (⟨0, none, false⟩ : MsgInfo))))
      = ((List.range (MAX_MAPPING_SIZE + 1)).map
        (fun i => (i, (⟨0, none, false⟩ : MsgInfo)))).drop 1 := by
  have h1 : ((List.range (MAX_MAPPING_SIZE + 1)).map
      (fun i => (i, (⟨0, none, false⟩ : MsgInfo)))).length
      = MAX_MAPPING_SIZE + 1 := by simp
  have h2 : (((List.range (MAX_MAPPING_SIZE + 1)).map
      (fun i => (i, (⟨0, none, false⟩ : MsgInfo)))).map Prod.fst).Nodup := by
    simp only [List.map_map]
    have : (Prod.fst ∘ fun i : Nat => (i, (⟨0, none, false⟩ : MsgInfo)))
        = fun i => i := rfl
    rw [this]
    simpa using List.nodup_range (MAX_MAPPING_SIZE + 1)
  exact ⟨h1, h2, (c2_mapping_capacity_fifo _ h1 h2).2.1⟩

/-! ### Segmenter marker lemmas (C9, C1) -/

/-- Marking appends `" [j + i/n]"` to the chunk at offset `i`. -/
lemma markLoop_getElem (n : Nat) :
    ∀ (ps : List Text) (j i : Nat),
    (markLoop n j ps)[i]? = ps[i]?.map (fun p => p ++ markerText (j + i) n) := by
  intro ps
  induction ps with
  | nil => intro j i; simp [markLoop]
  | cons p ps ih =>
    intro j i
    cases i with
    | zero => simp [markLoop]
    | succ i' =>
      have harith : j + 1 + i' = j + (i' + 1) := by omega
      simp [markLoop, ih (j + 1) i', harith]

/-- Marking preserves the number of chunks. -/
lemma markLoop_length (n : Nat) :
    ∀ (ps : List Text) (j : Nat), (markLoop n j ps).length = ps.length := by
  intro ps
  induction ps with
  | nil => intro j; rfl
  | cons p ps ih => intro j; simp [markLoop, ih (j + 1)]

/-- A multi-chunk result is exactly the marked raw chunk list. -/
lemma splitTextByBytes_multi (t : Text) (maxBytes : Nat)
    (h : 1 < (splitTextByBytes t maxBytes).length) :
    splitTextByBytes t maxBytes = markParts (rawParts t maxBytes) := by
  by_cases h1 : t = []
  · rw [h1] at h ⊢
    simp [splitTextByBytes] at h
  · by_cases h2 : calcTextBytes t ≤ maxBytes
    · rw [splitTextByBytes, if_neg h1, if_pos h2] at h
      simp at h
    · by_cases h3 : 1 < (rawParts t maxBytes).length
      · rw [splitTextByBytes, if_neg h1, if_neg h2]
        simp only [h3, if_true]
      · rw [splitTextByBytes, if_neg h1, if_neg h2] at h
        simp only [h3, if_false] at h

/-- C9: whenever more than one chunk is returned, the chunk at 0-based
position `i` is its unmarked chunk followed by `" [i+1/N]"` with `N`
the total number of chunks; when exactly one chunk is returned it is
unmarked (the whole text, or the single packed chunk); and the
500-single-byte-character scenario with `maxBytes = 200` yields exactly
3 chunks, each within 200 accounted bytes including its marker. -/
theorem c9_chunk_markers (t : Text) (maxBytes : Nat) (i : Nat)
    (hmulti : 1 < (splitTextByBytes t maxBytes).length)
    (t1 : Text) (hone : (splitTextByBytes t1 maxBytes).length = 1) :
    (splitTextByBytes t maxBytes)[i]?
      = ((rawParts t maxBytes)[i]?).map
          (fun p => p ++ markerText (i + 1) (splitTextByBytes t maxBytes).length) ∧
    (splitTextByBytes t1 maxBytes = [t1] ∨
     splitTextByBytes t1 maxBytes = rawParts t1 maxBytes) ∧
    ((splitTextByBytes (List.replicate 500 'a') 200).length = 3 ∧
     ∀ p ∈ splitTextByBytes (List.replicate 500 'a') 200, calcTextBytes p ≤ 200) := by
  refine ⟨?_, ?_, by decide⟩
  · have hmark := splitTextByBytes_multi t maxBytes hmulti
    have hlen : (splitTextByBytes t maxBytes).length = (rawParts t maxBytes).length := by
      rw [hmark, markParts, markLoop_length]
    rw [hlen, hmark, markParts, markLoop_getElem]
    have : 1 + i = i + 1 := by omega
    rw [this]
  · by_cases h1 : t1 = []
    · rw [h1] at hone
      simp [splitTextByBytes] at hone
    · by_cases h2 : calcTextBytes t1 ≤ maxBytes
      · left
        rw [splitTextByBytes, if_neg h1, if_pos h2]
      · right
        rw [splitTextByBytes, if_neg h1, if_neg h2] at hone ⊢
        by_cases h3 : 1 < (rawParts t1 maxBytes).length
        · simp only [h3, if_true] at hone
          rw [markParts, markLoop_length] at hone
          omega
        · simp only [h3, if_false]

/-- Witness for C9: 25 single-byte characters at `maxBytes = 20`
(three chunks) and the two-character text `"hi"` (one chunk). -/
theorem c9_chunk_markers_witness :
    (1 < (splitTextByBytes (List.replicate 25 'a') 20).length ∧
     (splitTextByBytes (['h', 'i'] : Text) 20).length = 1) ∧
    ((splitTextByBytes (List.replicate 25 'a') 20)[1]?
      = ((rawParts (List.replicate 25 'a') 20)[1]?).map
          (fun p => p ++ markerText (1 + 1)
            (splitTextByBytes (List.replicate 25 'a') 20).length) ∧
     (splitTextByBytes (['h', 'i'] : Text) 20 = [['h', 'i']] ∨
      splitTextByBytes (['h', 'i'] : Text) 20 = rawParts ['h', 'i'] 20) ∧
     ((splitTextByBytes (List.replicate 500 'a') 200).length = 3 ∧
      ∀ p ∈ splitTextByBytes (List.replicate 500 'a') 200, calcTextBytes p ≤ 200)) :=
  ⟨⟨by decide, by decide⟩,
    c9_chunk_markers (List.replicate 25 'a') 20 1 (by decide) ['h', 'i'] (by decide)⟩

/-! ### Hard-split lemmas (C1) -/

/-- Accounted size of an all-single-byte text is its length. -/
lemma calcTextBytes_ascii (w : Text) (hw : ∀ c ∈ w, charByteCount c = 1) :
    calcTextBytes w = w.length := by
  induction w with
  | nil => rfl
  | cons c cs ih =>
    have hc := hw c (List.mem_cons_self _ _)
    have hcs := fun x hx => hw x (List.mem_cons_of_mem _ hx)
    simp [calcTextBytes, hc, ih hcs]
    omega

/-- `splitWordsAux` on a whitespace-free text keeps accumulating. -/
lemma splitWordsAux_no_space :
    ∀ (w acc : Text), (∀ c ∈ w, isPySpace c = false) → acc ≠ [] →
    splitWordsAux w acc = [acc.reverse ++ w] := by
  intro w
  induction w with
  | nil =>
    intro acc _ hacc
    simp [splitWordsAux, hacc]
  | cons c cs ih =>
    intro acc hns hacc
    have hc : isPySpace c = false := hns c (List.mem_cons_self _ _)
    have hcs : ∀ x ∈ cs, isPySpace x = false :=
      fun x hx => hns x (List.mem_cons_of_mem _ hx)
    rw [splitWordsAux, hc]
    simp only [Bool.false_eq_true, if_false]
    rw [ih (c :: acc) hcs (by simp)]
    simp

/-- `str.split()` of a nonempty whitespace-free text is that one word. -/
lemma splitWords_single (w : Text) (hw : w ≠ [])
    (hns : ∀ c ∈ w, isPySpace c = false) : splitWords w = [w] := by
  obtain ⟨c, cs, rfl⟩ : ∃ c cs, w = c :: cs := by
    cases w with
    | nil => exact absurd rfl hw
    | cons c cs => exact ⟨c, cs, rfl⟩
  have hc : isPySpace c = false := hns c (List.mem_cons_self _ _)
  have hcs : ∀ x ∈ cs, isPySpace x = false :=
    fun x hx => hns x (List.mem_cons_of_mem _ hx)
  rw [splitWords, splitWordsAux, hc]
  simp only [Bool.false_eq_true, if_false]
  rw [splitWordsAux_no_space cs [c] hcs (by simp)]
  simp

/-- Invariant of the character hard-split loop on single-byte
characters: starting from a nonempty partial chunk of `cp.length ≤
effective` bytes, the loop emits some chunks of exactly `effective`
characters each, leaves a nonempty remainder within the budget, loses
no character, and produces `⌈(cp.length + w.length)/effective⌉` chunks
in total (emitted plus remainder). -/
lemma hardSplitLoop_ascii (effective : Nat) (heff : 1 ≤ effective) :
    ∀ (w cp : Text) (parts : List Text),
    (∀ c ∈ w, charByteCount c = 1) → (∀ c ∈ cp, charByteCount c = 1) →
    cp ≠ [] → cp.length ≤ effective →
    ∃ (qs : List Text) (rest : Text),
      hardSplitLoop effective w parts cp cp.length
        = (parts ++ qs, rest, rest.length) ∧
      qs.flatten ++ rest = cp ++ w ∧
      (∀ q ∈ qs, q.length = effective) ∧
      rest ≠ [] ∧ rest.length ≤ effective ∧
      qs.length + 1 = (cp.length + w.length + effective - 1) / effective := by
  intro w
  induction w with
  | nil =>
    intro cp parts _ _ hcpne hcple
    have h1 : 1 ≤ cp.length := List.length_pos.mpr hcpne
    refine ⟨[], cp, by simp [hardSplitLoop], by simp, by simp, hcpne, hcple, ?_⟩
    simp only [List.length_nil]
    have hdiv : (cp.length + 0 + effective - 1) / effective = 1 := by
      apply Nat.div_eq_of_lt_le
      · omega
      · omega
    rw [hdiv]
  | cons c cs ih =>
    intro cp parts hw hcp hcpne hcple
    have hc1 : charByteCount c = 1 := hw c (List.mem_cons_self _ _)
    have hwtail : ∀ x ∈ cs, charByteCount x = 1 :=
      fun x hx => hw x (List.mem_cons_of_mem _ hx)
    rw [hardSplitLoop]
    rw [hc1]
    by_cases hfit : cp.length + 1 ≤ effective
    · rw [if_pos hfit]
      have hcp2 : ∀ x ∈ cp ++ [c], charByteCount x = 1 := by
        intro x hx
        rcases List.mem_append.mp hx with hx | hx
        · exact hcp x hx
        · simp at hx
          rw [hx]
          exact hc1
      have hlen2 : (cp ++ [c]).length = cp.length + 1 := by simp
      obtain ⟨qs, rest, heq, hflat, hsizes, hne, hle, hcount⟩ :=
        ih (cp ++ [c]) parts hwtail hcp2 (by simp) (by rw [hlen2]; exact hfit)
      rw [hlen2] at heq
      refine ⟨qs, rest, heq, ?_, hsizes, hne, hle, ?_⟩
      · rw [hflat]
        simp
      · rw [hcount, hlen2]
        congr 1
        simp only [List.length_cons]
        omega
    · rw [if_neg hfit, if_neg hcpne]
      have hcpeff : cp.length = effective := by omega
      obtain ⟨qs, rest, heq, hflat, hsizes, hne, hle, hcount⟩ :=
        ih [c] (parts ++ [cp]) hwtail (by simpa using hc1) (by simp)
          (by simpa using heff)
      simp only [List.length_cons, List.length_nil] at heq
      rw [heq]
      refine ⟨cp :: qs, rest, by simp, ?_, ?_, hne, hle, ?_⟩
      · simp only [List.flatten_cons, List.append_assoc, hflat]
        simp
      · intro q hq
        rcases List.mem_cons.mp hq with rfl | hq
        · exact hcpeff
        · exact hsizes q hq
      · simp only [List.length_cons, List.length_nil] at hcount
        have harg2 : 1 + cs.length + effective - 1 = cs.length + effective := by
          omega
        rw [harg2] at hcount
        have harg : cp.length + (c :: cs).length + effective - 1
            = cs.length + effective + effective := by
          simp only [List.length_cons]
          omega
        rw [harg, Nat.add_div_right _ (by omega)]
        simp only [List.length_cons]
        omega

/-- The word loop on a single word that overflows the effective budget
goes through the hard-split branch. -/
lemma packLoop_single_oversized (effective : Nat) (w : Text) (qs : List Text)
    (rest : Text) (hnofit : ¬calcTextBytes w ≤ effective)
    (hhs : hardSplitLoop effective w [] [] 0 = (qs, rest, rest.length))
    (hne : rest ≠ []) :
    packLoop effective [w] [] [] 0 = (qs, [rest], calcTextBytes rest) := by
  rw [packLoop, hhs]
  simp [packLoop, hnofit, hne]

/-- The unmarked chunks `_split_text_by_bytes` produces for a single
oversized whitespace-free single-byte word: full chunks of
`effective = maxBytes - 10` characters plus a nonempty remainder, with
no character dropped. -/
lemma rawParts_single_word (w : Text) (maxBytes : Nat) (h12 : 12 ≤ maxBytes)
    (hascii : ∀ c ∈ w, charByteCount c = 1)
    (hns : ∀ c ∈ w, isPySpace c = false)
    (hbig : maxBytes < calcTextBytes w) :
    ∃ (qs : List Text) (rest : Text),
      rawParts w maxBytes = qs ++ [rest] ∧
      qs.flatten ++ rest = w ∧
      (∀ q ∈ qs, q.length = maxBytes - markerReserve) ∧
      rest ≠ [] ∧ rest.length ≤ maxBytes - markerReserve ∧
      (qs ++ [rest]).length
        = (calcTextBytes w + (maxBytes - markerReserve) - 1)
            / (maxBytes - markerReserve) := by
  have hlen : calcTextBytes w = w.length := calcTextBytes_ascii w hascii
  have heff : 1 ≤ maxBytes - markerReserve := by
    rw [markerReserve]
    omega
  have hwne : w ≠ [] := by
    intro hnil
    rw [hnil] at hbig
    simp [calcTextBytes] at hbig
  obtain ⟨c, cs, rfl⟩ : ∃ c cs, w = c :: cs := by
    cases w with
    | nil => exact absurd rfl hwne
    | cons c cs => exact ⟨c, cs, rfl⟩
  have hc1 : charByteCount c = 1 := hascii c (List.mem_cons_self _ _)
  have hwtail : ∀ x ∈ cs, charByteCount x = 1 :=
    fun x hx => hascii x (List.mem_cons_of_mem _ hx)
  -- the single word does not fit the effective budget
  have hnofit : ¬calcTextBytes (c :: cs) ≤ maxBytes - markerReserve := by
    omega
  obtain ⟨qs, rest, heq, hflat, hsizes, hne, hle, hcount⟩ :=
    hardSplitLoop_ascii (maxBytes - markerReserve) heff cs [c] []
      hwtail (by simpa using hc1) (by simp) (by simpa using heff)
  simp only [List.length_cons, List.length_nil, List.nil_append,
    Nat.zero_add] at heq
  -- open the hard-split loop on its first character
  have hfirst : hardSplitLoop (maxBytes - markerReserve) (c :: cs) [] [] 0
      = (qs, rest, rest.length) := by
    rw [hardSplitLoop, hc1, if_pos (by omega)]
    simpa using heq
  refine ⟨qs, rest, ?_, ?_, hsizes, hne, hle, ?_⟩
  · rw [rawParts, splitWords_single (c :: cs) hwne hns]
    rw [packLoop_single_oversized _ _ _ _ hnofit hfirst hne]
    simp only [hne, if_false]
    rfl
  · simpa using hflat
  · simp only [List.length_append, List.length_cons, List.length_nil] at hcount ⊢
    rw [hlen]
    simp only [List.length_cons]
    rw [hcount]
    congr 1
    omega

/-- C1 fails as stated: the single word of 195 single-byte characters
has accounted size `195 > 190 = 200 - 10` (the effective budget), so
the claim demands `⌈195/190⌉ = 2` chunks, each within 190 accounted
bytes; but since `195 ≤ maxBytes = 200` the whole-text fast path
returns one single chunk — the word itself, unsplit, at 195 accounted
bytes above the effective budget. -/
theorem c1_counterexample :
    200 - markerReserve < calcTextBytes (List.replicate 195 'a') ∧
    (calcTextBytes (List.replicate 195 'a') + (200 - markerReserve) - 1)
        / (200 - markerReserve) = 2 ∧
    splitTextByBytes (List.replicate 195 'a') 200 = [List.replicate 195 'a'] ∧
    (splitTextByBytes (List.replicate 195 'a') 200).length = 1 ∧
    200 - markerReserve < calcTextBytes (List.replicate 195 'a') := by
  decide

/-- C1 (amended): hard-splitting applies only when the oversized word
reaches the word loop with an empty accumulating chunk — in particular
when the text is that single word — and only when the word also
overflows `maxBytes` itself (otherwise the whole-text fast path returns
it unsplit).  For a text consisting of one whitespace-free word of
single-byte characters with accounted size `s > maxBytes` (and
`maxBytes ≥ 12`): the result is the marked chunk list, no character is
dropped, every chunk is within the effective budget
`maxBytes - 10` before its marker, and exactly
`⌈s / (maxBytes - 10)⌉` chunks are produced. -/
theorem c1_hard_split_single_word (w : Text) (maxBytes : Nat)
    (h12 : 12 ≤ maxBytes)
    (hascii : ∀ c ∈ w, charByteCount c = 1 ∧ isPySpace c = false)
    (hbig : maxBytes < calcTextBytes w) :
    splitTextByBytes w maxBytes = markParts (rawParts w maxBytes) ∧
    (rawParts w maxBytes).flatten = w ∧
    (∀ p ∈ rawParts w maxBytes, calcTextBytes p ≤ maxBytes - markerReserve) ∧
    (splitTextByBytes w maxBytes).length
      = (calcTextBytes w + (maxBytes - markerReserve) - 1)
          / (maxBytes - markerReserve) := by
  obtain ⟨qs, rest, hraw, hflat, hsizes, hne, hle, hcountlen⟩ :=
    rawParts_single_word w maxBytes h12 (fun c hc => (hascii c hc).1)
      (fun c hc => (hascii c hc).2) hbig
  have hwne : w ≠ [] := by
    intro hnil
    rw [hnil] at hbig
    simp [calcTextBytes] at hbig
  have hnle : ¬calcTextBytes w ≤ maxBytes := by omega
  have hchunk_ascii : ∀ p ∈ rawParts w maxBytes, ∀ x ∈ p, charByteCount x = 1 := by
    intro p hp x hx
    refine (hascii x ?_).1
    rw [hraw] at hp
    rcases List.mem_append.mp hp with hp | hp
    · have h1 : x ∈ qs.flatten := List.mem_flatten.mpr ⟨p, hp, hx⟩
      have h2 : x ∈ qs.flatten ++ rest := List.mem_append_left _ h1
      rw [hflat] at h2
      exact h2
    · simp only [List.mem_singleton] at hp
      have h2 : x ∈ qs.flatten ++ rest := List.mem_append_right _ (hp ▸ hx)
      rw [hflat] at h2
      exact h2
  have hcount2 : 1 < (rawParts w maxBytes).length := by
    rw [hraw, hcountlen]
    have h2 : 2 * (maxBytes - markerReserve)
        ≤ calcTextBytes w + (maxBytes - markerReserve) - 1 := by
      rw [markerReserve] at *
      omega
    have h3 := (Nat.le_div_iff_mul_le
      (k := maxBytes - markerReserve) (by rw [markerReserve]; omega)).mpr h2
    omega
  have hsplit : splitTextByBytes w maxBytes = markParts (rawParts w maxBytes) := by
    rw [splitTextByBytes, if_neg hwne, if_neg hnle]
    simp only [hcount2, if_true]
  refine ⟨hsplit, ?_, ?_, ?_⟩
  · rw [hraw]
    simp only [List.flatten_append, List.flatten_cons, List.flatten_nil,
      List.append_nil]
    exact hflat
  · intro p hp
    rw [calcTextBytes_ascii p (hchunk_ascii p hp)]
    rw [hraw] at hp
    rcases List.mem_append.mp hp with hp | hp
    · rw [hsizes p hp]
    · simp only [List.mem_singleton] at hp
      rw [hp]
      exact hle
  · rw [hsplit, markParts, markLoop_length, hraw]
    exact hcountlen

/-- Witness for the amended C1: 25 single-byte characters at
`maxBytes = 20` (effective budget 10, three chunks). -/
theorem c1_hard_split_single_word_witness :
    (12 ≤ 20 ∧
     (∀ c ∈ List.replicate 25 'a', charByteCount c = 1 ∧ isPySpace c = false) ∧
     20 < calcTextBytes (List.replicate 25 'a')) ∧
    (splitTextByBytes (List.replicate 25 'a') 20
        = markParts (rawParts (List.replicate 25 'a') 20) ∧
     (rawParts (List.replicate 25 'a') 20).flatten = List.replicate 25 'a' ∧
     (∀ p ∈ rawParts (List.replicate 25 'a') 20,
        calcTextBytes p ≤ 20 - markerReserve) ∧
     (splitTextByBytes (List.replicate 25 'a') 20).length
        = (calcTextBytes (List.replicate 25 'a') + (20 - markerReserve) - 1)
            / (20 - markerReserve)) :=
  ⟨⟨by decide, by decide, by decide⟩,
    c1_hard_split_single_word (List.replicate 25 'a') 20
      (by decide) (by decide) (by decide)⟩

/-! ### Confirmation workflow (C3) -/

/-- C3 fails as stated: with a staged confirmation whose `msg_id` is 5,
a confirm callback embedding the matching id 5 while the mesh
connection is down does NOT trigger delivery — the slot is cleared and
an error notice shown instead of the claimed segmentation-and-send. -/
theorem c3_counterexample :
    handleConfirmation false 5
        (some ⟨['h', 'i'], none, none, 5, none⟩) false none
      = (none, ConfirmResult.notConnected) ∧
    handleConfirmation false 5
        (some ⟨['h', 'i'], none, none, 5, none⟩) false none
      ≠ (none, ConfirmResult.sent
          (splitTextByBytes ['h', 'i'] MAX_BYTES_PER_MESSAGE)
          ⟨none, none⟩ none) := by
  decide

/-- C3 (amended): for a staged PendingConfirmation, a confirm callback
whose embedded chat message id equals the staged `msg_id` triggers mesh
delivery (segmenting the staged text) and deletes the slot PROVIDED the
mesh connection is up — when it is down the slot is still deleted but
nothing is sent; a matching cancel deletes the slot without sending; a
confirm or cancel whose id does not match neither sends nor clears the
slot; and staging a new message for the conversation silently replaces
any prior pending one. -/
theorem c3_confirmation_workflow (p pnew : Pending) (origId otherId : Nat)
    (chan : Option String) (pm : PendingMap) (chat : String)
    (hmatch : p.msg_id = origId) (hmiss : p.msg_id ≠ otherId) :
    handleConfirmation false origId (some p) true chan
      = (none, ConfirmResult.sent
          (splitTextByBytes p.text MAX_BYTES_PER_MESSAGE)
          ⟨p.reply_id, chan⟩ p.dest) ∧
    handleConfirmation false origId (some p) false chan
      = (none, ConfirmResult.notConnected) ∧
    (∀ conn : Bool, handleConfirmation true origId (some p) conn chan
      = (none, ConfirmResult.cancelled)) ∧
    (∀ isCancel conn : Bool,
      handleConfirmation isCancel otherId (some p) conn chan
        = (some p, ConfirmResult.noAction)) ∧
    setPending pm chat pnew chat = some pnew := by
  refine ⟨?_, ?_, ?_, ?_, ?_⟩
  · simp [handleConfirmation, hmatch]
  · simp [handleConfirmation, hmatch]
  · intro conn
    simp [handleConfirmation, hmatch]
  · intro isCancel conn
    cases isCancel <;> simp [handleConfirmation, hmiss]
  · simp [setPending]

/-- Witness for the amended C3 with a staged id 5, callbacks 5 and 7. -/
theorem c3_confirmation_workflow_witness :
    ((⟨['h', 'i'], none, none, 5, none⟩ : Pending).msg_id = 5 ∧
     (⟨['h', 'i'], none, none, 5, none⟩ : Pending).msg_id ≠ 7) ∧
    (handleConfirmation false 5 (some ⟨['h', 'i'], none, none, 5, none⟩) true none
      = (none, ConfirmResult.sent
          (splitTextByBytes (['h', 'i'] : Text) MAX_BYTES_PER_MESSAGE)
          ⟨none, none⟩ none) ∧
     handleConfirmation false 5 (some ⟨['h', 'i'], none, none, 5, none⟩) false none
      = (none, ConfirmResult.notConnected) ∧
     (∀ conn : Bool,
       handleConfirmation true 5 (some ⟨['h', 'i'], none, none, 5, none⟩) conn none
        = (none, ConfirmResult.cancelled)) ∧
     (∀ isCancel conn : Bool,
       handleConfirmation isCancel 7 (some ⟨['h', 'i'], none, none, 5, none⟩) conn none
        = (some ⟨['h', 'i'], none, none, 5, none⟩, ConfirmResult.noAction)) ∧
     setPending (fun _ => none) "c" ⟨['o', 'k'], none, none, 9, none⟩ "c"
      = some ⟨['o', 'k'], none, none, 9, none⟩) :=
  ⟨⟨by decide, by decide⟩,
    c3_confirmation_workflow ⟨['h', 'i'], none, none, 5, none⟩
      ⟨['o', 'k'], none, none, 9, none⟩ 5 7 none (fun _ => none) "c"
      (by decide) (by decide)⟩

/-! ### Record/lookup round trip (C6) -/

/-- In-place `OrderedDict` update: when key `k` is present and no old
record carries the Telegram id `tg`, the scan by `tg` finds the updated
record. -/
lemma find_telegram_map_inplace (k : Nat) (v : MsgInfo) (tg : Nat)
    (hv : v.telegram_msg_id = tg) :
    ∀ m : MsgMapping, (∀ p ∈ m, p.2.telegram_msg_id ≠ tg) →
    (m.any fun p => p.1 = k) = true →
    (m.map fun p => if p.1 = k then (k, v) else p).find?
        (fun p => p.2.telegram_msg_id = tg) = some (k, v) := by
  intro m
  induction m with
  | nil =>
    intro _ hany
    simp at hany
  | cons q qs ih =>
    intro hm hany
    by_cases hq : q.1 = k
    · rw [List.map_cons, if_pos hq]
      rw [List.find?_cons_of_pos]
      simp [hv]
    · rw [List.map_cons, if_neg hq]
      rw [List.find?_cons_of_neg]
      · refine ih (fun p hp => hm p (List.mem_cons_of_mem _ hp)) ?_
        rw [List.any_cons] at hany
        simpa [hq] using hany
      · simpa using hm q (List.mem_cons_self _ _)

/-- After `recordMapping` stores a record under a Telegram id no other
record carries, the reverse scan by that Telegram id finds exactly it. -/
lemma findReplyInfo_record (m : MsgMapping) (mesh tg : Nat) (v : MsgInfo)
    (hv : v.telegram_msg_id = tg)
    (hm : ∀ p ∈ m, p.2.telegram_msg_id ≠ tg) :
    findReplyInfo (recordMapping m mesh v) tg
      = (some mesh, v.node_id, v.is_private) := by
  have hm1 : ∀ p ∈ (if MAX_MAPPING_SIZE ≤ m.length then m.drop 1 else m),
      p.2.telegram_msg_id ≠ tg := by
    intro p hp
    refine hm p ?_
    revert hp
    split
    · exact fun hp => List.mem_of_mem_drop hp
    · exact fun hp => hp
  unfold recordMapping
  dsimp only
  set m1 : MsgMapping := if MAX_MAPPING_SIZE ≤ m.length then m.drop 1 else m
    with hm1def
  unfold odSet findReplyInfo
  by_cases hany : (m1.any fun p => p.1 = mesh) = true
  · rw [if_pos hany]
    rw [find_telegram_map_inplace mesh v tg hv m1 hm1 hany]
  · rw [if_neg hany, List.find?_append]
    have hnone : m1.find? (fun p => p.2.telegram_msg_id = tg) = none := by
      rw [List.find?_eq_none]
      intro p hp
      simpa using hm1 p hp
    rw [hnone]
    simp [List.find?, hv]

/-- C6: after `_forward_to_telegram` stores the record tying a mesh
message id to the Telegram message id it was mirrored as (with its
stored destination and privacy flag), `_find_reply_info` on that
Telegram id returns exactly that mesh id, stored destination and flag;
and a chat reply staged against that Telegram message, once confirmed,
is sent with the returned mesh id as its `replyId`. -/
theorem c6_record_lookup_roundtrip (m : MsgMapping) (mesh tg : Nat)
    (node : Option String) (priv : Bool) (text1 : Text) (msgId : Nat)
    (nodeMap : List (String × String)) (chan : Option String)
    (hfresh : ∀ p ∈ m, p.2.telegram_msg_id ≠ tg) :
    findReplyInfo (forwardStoreMapping m (some mesh) tg node priv) tg
      = (some mesh, (if priv then node else none), priv) ∧
    ((stageTelegramMessage (forwardStoreMapping m (some mesh) tg node priv)
        nodeMap text1 msgId (some tg)).reply_id = some mesh ∧
     handleConfirmation false msgId
        (some (stageTelegramMessage (forwardStoreMapping m (some mesh) tg node priv)
          nodeMap text1 msgId (some tg))) true chan
      = (none, ConfirmResult.sent
          (splitTextByBytes text1 MAX_BYTES_PER_MESSAGE)
          ⟨some mesh, chan⟩
          (stageTelegramMessage (forwardStoreMapping m (some mesh) tg node priv)
            nodeMap text1 msgId (some tg)).dest)) := by
  have hfind : findReplyInfo (forwardStoreMapping m (some mesh) tg node priv) tg
      = (some mesh, (if priv then node else none), priv) := by
    rw [forwardStoreMapping]
    exact findReplyInfo_record m mesh tg _ rfl hfresh
  refine ⟨hfind, ?_, ?_⟩
  · rw [stageTelegramMessage]
    dsimp only
    rw [hfind]
  · rw [handleConfirmation]
    have hmsg : (stageTelegramMessage (forwardStoreMapping m (some mesh) tg node priv)
        nodeMap text1 msgId (some tg)).msg_id = msgId := rfl
    have htext : (stageTelegramMessage (forwardStoreMapping m (some mesh) tg node priv)
        nodeMap text1 msgId (some tg)).text = text1 := rfl
    have hreply : (stageTelegramMessage (forwardStoreMapping m (some mesh) tg node priv)
        nodeMap text1 msgId (some tg)).reply_id = some mesh := by
      rw [stageTelegramMessage]
      dsimp only
      rw [hfind]
    simp [hmsg, htext, hreply]

/-- Witness for C6 with an empty prior store. -/
theorem c6_record_lookup_roundtrip_witness :
    (∀ p ∈ ([] : MsgMapping), p.2.telegram_msg_id ≠ 42) ∧
    findReplyInfo (forwardStoreMapping [] (some 7) 42 (some "!abc") true) 42
      = (some 7, (if true then some "!abc" else none), true) ∧
    ((stageTelegramMessage (forwardStoreMapping [] (some 7) 42 (some "!abc") true)
        [] ['h', 'i'] 5 (some 42)).reply_id = some 7 ∧
     handleConfirmation false 5
        (some (stageTelegramMessage (forwardStoreMapping [] (some 7) 42 (some "!abc") true)
          [] ['h', 'i'] 5 (some 42))) true none
      = (none, ConfirmResult.sent
          (splitTextByBytes (['h', 'i'] : Text) MAX_BYTES_PER_MESSAGE)
          ⟨some 7, none⟩
          (stageTelegramMessage (forwardStoreMapping [] (some 7) 42 (some "!abc") true)
            [] ['h', 'i'] 5 (some 42)).dest)) :=
  ⟨by simp,
    c6_record_lookup_roundtrip [] 7 42 (some "!abc") true ['h', 'i'] 5 [] none
      (by simp)⟩

/-! ### Connection lifecycle (C4) -/

/-- While `manual_disconnect` is set, no non-`/connect` event ever
calls `_connect_meshtastic`, and none clears the flag. -/
lemma stepBot_manual_preserved (s : BotConn) (e : BotEvent)
    (hm : s.manual_disconnect = true) (he : e.isConnectCmd = false) :
    (stepBot s e).1.manual_disconnect = true ∧ (stepBot s e).2 = false := by
  cases e with
  | attemptRec now ok =>
    simp [stepBot, attemptReconnect, hm]
  | onDisc now ok =>
    simp [stepBot, markDisconnected, hm]
  | meshErr now ok isConnErr =>
    cases isConnErr <;> simp [stepBot, markDisconnected, hm]
  | tick now healthOk ok =>
    simp [stepBot, hm]
  | disconnectCmd =>
    refine ⟨?_, rfl⟩
    show (disconnectCommand s).manual_disconnect = true
    unfold disconnectCommand disconnectMeshtastic
    split <;> rfl
  | connectCmd ok =>
    simp [BotEvent.isConnectCmd] at he

/-- Running any sequence of non-`/connect` events from a
manually-disconnected state never calls `_connect_meshtastic` and keeps
the flag set. -/
lemma runBot_manual (evs : List BotEvent) :
    ∀ s : BotConn, s.manual_disconnect = true →
    (∀ e ∈ evs, e.isConnectCmd = false) →
    (runBot s evs).1.manual_disconnect = true ∧ (runBot s evs).2 = false := by
  induction evs with
  | nil =>
    intro s hm _
    exact ⟨hm, rfl⟩
  | cons e tl ih =>
    intro s hm hevs
    have hstep := stepBot_manual_preserved s e hm (hevs e (List.mem_cons_self _ _))
    have ihr := ih (stepBot s e).1 hstep.1
      (fun x hx => hevs x (List.mem_cons_of_mem _ hx))
    rw [runBot]
    dsimp only
    rw [hstep.2]
    simpa using ihr

/-- C4: while `manual_disconnect` holds, `_attempt_reconnect` returns
immediately without touching the state or calling
`_connect_meshtastic`, regardless of how much time has elapsed; the
`/disconnect` command sets the flag and forces the Disconnected state;
the `/connect` command clears the flag; and between a manual disconnect
and the next `/connect` no event of the control loop or pubsub handlers
calls `_connect_meshtastic`, the flag staying set throughout. -/
theorem c4_manual_disconnect_suppresses_reconnect (s s0 : BotConn)
    (now : Nat) (ok : Bool) (evs : List BotEvent)
    (hm : s.manual_disconnect = true)
    (hinv : s0.has_interface = false → s0.is_connected = false)
    (hevs : ∀ e ∈ evs, e.isConnectCmd = false) :
    attemptReconnect s now ok = (s, false) ∧
    ((stepBot s0 BotEvent.disconnectCmd).1.manual_disconnect = true ∧
     (stepBot s0 BotEvent.disconnectCmd).1.is_connected = false) ∧
    (stepBot s0 (BotEvent.connectCmd ok)).1.manual_disconnect = false ∧
    ((runBot (stepBot s0 BotEvent.disconnectCmd).1 evs).2 = false ∧
     (runBot (stepBot s0 BotEvent.disconnectCmd).1 evs).1.manual_disconnect
       = true) := by
  have hdisc : (stepBot s0 BotEvent.disconnectCmd).1.manual_disconnect = true := by
    show (disconnectCommand s0).manual_disconnect = true
    unfold disconnectCommand disconnectMeshtastic
    split <;> rfl
  refine ⟨?_, ⟨hdisc, ?_⟩, ?_, ?_⟩
  · simp [attemptReconnect, hm]
  · show (disconnectCommand s0).is_connected = false
    unfold disconnectCommand disconnectMeshtastic
    split
    · rfl
    · rename_i hni
      exact hinv (by simpa using hni)
  · show (connectCommand s0 ok).manual_disconnect = false
    rfl
  · have hrun := runBot_manual evs (stepBot s0 BotEvent.disconnectCmd).1 hdisc hevs
    exact ⟨hrun.2, hrun.1⟩

/-- Witness for C4: a connected bot is manually disconnected and then
sees a reconnect attempt, a failed health tick, a pubsub disconnect
event and a connection error; none reconnects. -/
theorem c4_manual_disconnect_suppresses_reconnect_witness :
    ((⟨false, true, false, 0, false⟩ : BotConn).manual_disconnect = true ∧
     ((⟨true, false, false, 0, true⟩ : BotConn).has_interface = false →
       (⟨true, false, false, 0, true⟩ : BotConn).is_connected = false) ∧
     (∀ e ∈ [BotEvent.attemptRec 999999 true, BotEvent.tick 5 false true,
        BotEvent.onDisc 7 true, BotEvent.meshErr 8 true true,
        BotEvent.disconnectCmd], e.isConnectCmd = false)) ∧
    (attemptReconnect ⟨false, true, false, 0, false⟩ 999999 true
      = (⟨false, true, false, 0, false⟩, false) ∧
     ((stepBot ⟨true, false, false, 0, true⟩ BotEvent.disconnectCmd).1.manual_disconnect
        = true ∧
      (stepBot ⟨true, false, false, 0, true⟩ BotEvent.disconnectCmd).1.is_connected
        = false) ∧
     (stepBot ⟨true, false, false, 0, true⟩ (BotEvent.connectCmd true)).1.manual_disconnect
        = false ∧
     ((runBot (stepBot ⟨true, false, false, 0, true⟩ BotEvent.disconnectCmd).1
        [BotEvent.attemptRec 999999 true, BotEvent.tick 5 false true,
         BotEvent.onDisc 7 true, BotEvent.meshErr 8 true true,
         BotEvent.disconnectCmd]).2 = false ∧
      (runBot (stepBot ⟨true, false, false, 0, true⟩ BotEvent.disconnectCmd).1
        [BotEvent.attemptRec 999999 true, BotEvent.tick 5 false true,
         BotEvent.onDisc 7 true, BotEvent.meshErr 8 true true,
         BotEvent.disconnectCmd]).1.manual_disconnect = true)) :=
  ⟨⟨by decide, by decide, by decide⟩,
    c4_manual_disconnect_suppresses_reconnect
      ⟨false, true, false, 0, false⟩ ⟨true, false, false, 0, true⟩
      999999 true
      [BotEvent.attemptRec 999999 true, BotEvent.tick 5 false true,
       BotEvent.onDisc 7 true, BotEvent.meshErr 8 true true,
       BotEvent.disconnectCmd]
      (by decide) (by decide) (by decide)⟩

/-! ### Hop-range suppression (C5) -/

/-- C5: for a keyword-triggered broadcast packet received over a live
connection whose hop count `hopStart - hopLimit` falls inclusively
inside the configured `[min, max]` filter, the composed auto-reply is
mirrored to Telegram prefixed `[FILTERED]` and nothing is transmitted
onto the mesh. -/
theorem c5_hop_filter_suppression (shortName : String) (nodeId : Option String)
    (rssi snr : String) (hs hl fmin fmax : Int) (chan : Option String)
    (msgId : Option Nat) (via : Option String) (cfg : BotConfig)
    (hmin : cfg.hop_filter_min = some fmin)
    (hmax : cfg.hop_filter_max = some fmax)
    (hlo : fmin ≤ hs - hl) (hhi : hs - hl ≤ fmax) :
    handleAutoReply true false shortName nodeId rssi snr (some hs) (some hl)
        chan msgId via cfg
      = ⟨none, some ("[FILTERED] " ++ composeAutoReply false shortName rssi snr
          (some (hs - hl)) via cfg)⟩ := by
  unfold handleAutoReply
  simp [computeHopCount, hmin, hmax, hlo, hhi]

/-- Witness for C5: filter `[1, 3]`, `hopStart = 5`, `hopLimit = 3`
(hop count 2): the hop-template reply is mirrored flagged and not
sent. -/
theorem c5_hop_filter_suppression_witness :
    ((⟨[], [], "", "", none, some 1, some 3⟩ : BotConfig).hop_filter_min = some 1 ∧
     (⟨[], [], "", "", none, some 1, some 3⟩ : BotConfig).hop_filter_max = some 3 ∧
     (1 : Int) ≤ 5 - 3 ∧ (5 : Int) - 3 ≤ 3) ∧
    handleAutoReply true false "AB12" (some "!abc") "-100" "5.5"
        (some 5) (some 3) none (some 77) none
        ⟨[], [], "", "", none, some 1, some 3⟩
      = ⟨none, some ("[FILTERED] " ++ composeAutoReply false "AB12" "-100" "5.5"
          (some ((5 : Int) - 3)) none ⟨[], [], "", "", none, some 1, some 3⟩)⟩ :=
  ⟨⟨rfl, rfl, by decide, by decide⟩,
    c5_hop_filter_suppression "AB12" (some "!abc") "-100" "5.5" 5 3 1 3
      none (some 77) none ⟨[], [], "", "", none, some 1, some 3⟩
      rfl rfl (by decide) (by decide)⟩

/-! ### Private-message privacy gate (C10) -/

/-- C10: a private (non-broadcast) text packet whose sender's
lowercased short name is not in the private-node allow-list is not
mirrored to Telegram at all — it is only logged to the private-message
file — and even when the keyword gate fires, the auto-reply engine
neither mirrors nor transmits anything for it. -/
theorem c10_private_not_allowlisted_not_mirrored (connected : Bool)
    (toId : Nat) (shortName : String) (nodeId : Option String) (text1 : Text)
    (rssi snr : String) (hs hl : Option Int) (chan : Option String)
    (msgId : Option Nat) (via : Option String) (cfg : BotConfig)
    (hpriv : toId ≠ BROADCAST_ID)
    (hallow : cfg.private_node_names.contains (strLower shortName) = false) :
    (onReceiveText connected toId shortName nodeId text1 rssi snr hs hl
        chan msgId via cfg).forwardedToTelegram = false ∧
    (onReceiveText connected toId shortName nodeId text1 rssi snr hs hl
        chan msgId via cfg).loggedToFile = true ∧
    (onReceiveText connected toId shortName nodeId text1 rssi snr hs hl
        chan msgId via cfg).logType = "private" ∧
    (∀ o, (onReceiveText connected toId shortName nodeId text1 rssi snr hs hl
        chan msgId via cfg).autoReply = some o →
      o.telegramMirror = none ∧ o.meshSend = none) := by
  have hb : (toId == BROADCAST_ID) = false := by
    simpa using hpriv
  have hallow2 : strLower shortName ∉ cfg.private_node_names := by
    simpa using hallow
  unfold onReceiveText
  dsimp only
  rw [hb]
  refine ⟨by simp [hallow2], rfl, by simp, ?_⟩
  intro o ho
  by_cases hk : hasKeywords text1 cfg.keywords = true
  · rw [if_pos hk] at ho
    have ho2 : o = handleAutoReply connected true shortName nodeId rssi snr
        hs hl chan msgId via cfg := by
      simpa using ho.symm
    rw [ho2]
    cases connected with
    | false => exact ⟨rfl, rfl⟩
    | true =>
      unfold handleAutoReply
      simp [hallow2]
  · rw [if_neg hk] at ho
    cases ho

/-- Witness for C10: private packet (`toId = 7`) from sender `"EVIL"`
with an empty allow-list. -/
theorem c10_private_not_allowlisted_not_mirrored_witness :
    ((7 : Nat) ≠ BROADCAST_ID ∧
     (⟨[['s'], ['n'], ['r']], [], "", "", none, none, none⟩ : BotConfig).private_node_names.contains
        (strLower "EVIL") = false) ∧
    ((onReceiveText true 7 "EVIL" (some "!e") ['s'] "-90" "4"
        (some 3) (some 1) none (some 5) none
        ⟨[['s'], ['n'], ['r']], [], "", "", none, none, none⟩).forwardedToTelegram = false ∧
     (onReceiveText true 7 "EVIL" (some "!e") ['s'] "-90" "4"
        (some 3) (some 1) none (some 5) none
        ⟨[['s'], ['n'], ['r']], [], "", "", none, none, none⟩).loggedToFile = true ∧
     (onReceiveText true 7 "EVIL" (some "!e") ['s'] "-90" "4"
        (some 3) (some 1) none (some 5) none
        ⟨[['s'], ['n'], ['r']], [], "", "", none, none, none⟩).logType = "private" ∧
     (∀ o, (onReceiveText true 7 "EVIL" (some "!e") ['s'] "-90" "4"
        (some 3) (some 1) none (some 5) none
        ⟨[['s'], ['n'], ['r']], [], "", "", none, none, none⟩).autoReply = some o →
       o.telegramMirror = none ∧ o.meshSend = none)) :=
  ⟨⟨by decide, by decide⟩,
    c10_private_not_allowlisted_not_mirrored true 7 "EVIL" (some "!e") ['s']
      "-90" "4" (some 3) (some 1) none (some 5) none
      ⟨[['s'], ['n'], ['r']], [], "", "", none, none, none⟩
      (by decide) (by decide)⟩

end MeshBot
